import Mathlib

/-
  Shallow embedding of the angelscript-ui-debugger core
  (header `as_debugger.h` = src/unnamed/part_000, ImGui frontend
  src/as_debugger_imgui.cpp). Pure data definitions are translated
  from the header; operations whose bodies live in the repository
  but outside the provided sources are modelled from the design
  document and are marked as such in their doc comments.
-/

namespace ASDbg

/-- Expansion kinds of a rendered value (header, `asIDBExpandType`). -/
inductive asIDBExpandType
  | None
  | Value
  | Children
  | Entries
deriving DecidableEq, Repr

/-- Machine addresses as seen by the debugger. The C++ code stores a
raw `void *`; the model distinguishes the null pointer, pointers into
runtime-owned memory and pointers into a private snapshot buffer owned
by a `asIDBVarState` (the `stackMemory` allocation), because the
invariants the design states are about which region an address points
into. Equality of two addresses is structural, as pointer equality is. -/
inductive asIDBAddr
  | null
  | runtime (a : Nat)
  | buffer (bufId : Nat) (off : Nat)
deriving DecidableEq, Repr

/-- Key of the variable cache (header, `asIDBVarAddr`): type id plus address. -/
structure asIDBVarAddr where
  typeId : Nat
  address : asIDBAddr
deriving DecidableEq, Repr

/-- Structural equality operator of `asIDBVarAddr` (header, lines 75-78). -/
def asIDBVarAddr.eqOp (a b : asIDBVarAddr) : Bool :=
  decide (a.typeId = b.typeId) && decide (a.address = b.address)

theorem asIDBVarAddr.eqOp_iff (a b : asIDBVarAddr) :
    asIDBVarAddr.eqOp a b = true ↔ a = b := by
  cases a; cases b
  simp [asIDBVarAddr.eqOp, asIDBVarAddr.mk.injEq]

/-- A value rendered by the debugger (header, `asIDBVarValue`). -/
structure asIDBVarValue where
  disabled : Bool := false
  expandable : asIDBExpandType := asIDBExpandType.None
  value : String := ""
deriving DecidableEq, Repr

/-- A named view of a cached variable (header, `asIDBVarView`).
The C++ `var` field is an iterator into the address-keyed
`var_states` map; since that map's entries are identified by their
key, the model stores the key as the referenced state identity. -/
structure asIDBVarView where
  name : String
  type : String
  var : asIDBVarAddr
deriving DecidableEq, Repr

/-- Cached displayable state of one variable (header, `asIDBVarState`).
`stackMemory` is the optional exclusively-owned snapshot buffer used
for temporaries; `queriedChildren` records that children or entries
were already queried. -/
structure asIDBVarState where
  value : asIDBVarValue := {}
  stackMemory : Option (List Nat) := none
  queriedChildren : Bool := false
  children : List asIDBVarView := []
  entries : List asIDBVarValue := []
deriving DecidableEq, Repr

/-- Value-initialized `asIDBVarState`, as produced by `try_emplace`. -/
def asIDBVarState.init : asIDBVarState := {}

/-- Kinds of locals (header, `asIDBLocalType`). -/
inductive asIDBLocalType
  | Parameter
  | Variable
  | Temporary
deriving DecidableEq, Repr

/-- Key of the locals map (header, `asIDBLocalKey`). The header stores
the offset in a `uint8_t` field. -/
structure asIDBLocalKey where
  offset : Nat
  type : asIDBLocalType
deriving DecidableEq, Repr

/-- The `asIDBLocalKey(int offset, asIDBLocalType type)` constructor
(header, lines 172-176): the `int` argument is converted to the
`uint8_t` field, i.e. reduced modulo 256. -/
def asIDBLocalKey.ofInt (offset : Int) (t : asIDBLocalType) : asIDBLocalKey :=
  ⟨(offset % 256).toNat, t⟩

/-- Truncation to `size_t` width, used by the hash helper. -/
def size_t_mod (n : Nat) : Nat := n % 2 ^ 64

/-- Hash combiner (header, `asIDBHashCombine`, lines 29-34):
seed is xor-ed with `hash + 0x9e3779b9 + (seed << 6) + (seed >> 2)`,
all in `size_t` arithmetic. -/
def asIDBHashCombine (seed h : Nat) : Nat :=
  size_t_mod (seed ^^^ size_t_mod (h + 0x9e3779b9 + size_t_mod (seed <<< 6) + seed >>> 2))

/-- Hash of `asIDBLocalKey` (header, lines 184-193): hash the offset
field, then combine with the hash of the kind. The component hashers
`hash8` and `hashType` stand for `std::hash<uint8_t>` and
`std::hash<asIDBLocalType>` and are left abstract. -/
def hashLocalKey (hash8 : Nat → Nat) (hashType : asIDBLocalType → Nat)
    (k : asIDBLocalKey) : Nat :=
  asIDBHashCombine (hash8 k.offset) (hashType k.type)

/-- Lookup in the locals map (`asIDBLocalMap`), keyed by
`asIDBLocalKey` structural equality. -/
def localsFind (m : List (asIDBLocalKey × List asIDBVarView)) (k : asIDBLocalKey) :
    Option (List asIDBVarView) :=
  (m.find? fun p => decide (p.1 = k)).map (·.2)

/-- Runtime execution context as far as the cache touches it: a
reference count and whether a line callback is installed. -/
structure asIScriptContext where
  refCount : Nat
  lineCallbackSet : Bool
deriving DecidableEq, Repr

def asIScriptContext.AddRef (c : asIScriptContext) : asIScriptContext :=
  { c with refCount := c.refCount + 1 }

def asIScriptContext.Release (c : asIScriptContext) : asIScriptContext :=
  { c with refCount := c.refCount - 1 }

def asIScriptContext.ClearLineCallback (c : asIScriptContext) : asIScriptContext :=
  { c with lineCallbackSet := false }

/-- The per-suspension cache (header, `asIDBCache`): the debugged
context plus the address-keyed variable store, the globals list and
its guard flag, the locals map and the watch list. -/
structure asIDBCache where
  ctx : asIScriptContext
  var_states : List (asIDBVarAddr × asIDBVarState) := []
  globalsCached : Bool := false
  globals : List asIDBVarView := []
  locals : List (asIDBLocalKey × List asIDBVarView) := []
  watch : List asIDBVarView := []
deriving Repr

/-- Lookup into `var_states`, keyed by `asIDBVarAddr::operator==`
(structural equality of typeId and address). -/
def findVar (m : List (asIDBVarAddr × asIDBVarState)) (id : asIDBVarAddr) :
    Option asIDBVarState :=
  (m.find? fun p => asIDBVarAddr.eqOp p.1 id).map (·.2)

/-- The `asIDBCache` constructor (header, lines 339-343): stores the
context and adds one reference to it. -/
def asIDBCache.construct (ctx : asIScriptContext) : asIDBCache :=
  { ctx := ctx.AddRef }

/-- The `asIDBCache` destructor (header, lines 345-349): clears the
line callback on the context, then releases the one held reference. -/
def asIDBCache.destruct (c : asIDBCache) : asIScriptContext :=
  c.ctx.ClearLineCallback.Release

/-- The `asIDBCache::AddVarState` member (header, lines 372-377):
`try_emplace` of a value-initialized state under the key; the `exists`
output is true exactly when the key was already present, and the
returned iterator designates the entry under that key. -/
def asIDBCache.AddVarState (c : asIDBCache) (id : asIDBVarAddr) :
    asIDBCache × asIDBVarAddr × Bool :=
  match findVar c.var_states id with
  | some _ => (c, id, true)
  | none => ({ c with var_states := c.var_states ++ [(id, asIDBVarState.init)] }, id, false)

theorem findVar_append_self (m : List (asIDBVarAddr × asIDBVarState))
    (id : asIDBVarAddr) (st : asIDBVarState) (h : findVar m id = none) :
    findVar (m ++ [(id, st)]) id = some st := by
  induction m with
  | nil => simp [findVar, asIDBVarAddr.eqOp]
  | cons p m ih =>
      by_cases hp : asIDBVarAddr.eqOp p.1 id = true
      · exfalso
        simp [findVar, List.find?_cons, hp] at h
      · have hp' : asIDBVarAddr.eqOp p.1 id = false := by
          cases hq : asIDBVarAddr.eqOp p.1 id
          · rfl
          · exact absurd hq hp
        simp only [findVar, List.cons_append, List.find?_cons, hp'] at h ⊢
        exact ih h

/-- C10: constructing `asIDBLocalKey` from an `int` stack offset keeps
only the offset modulo 256, so two offsets of the same kind that differ
by a multiple of 256 produce equal keys, identical hashes (for any
component hashers), and resolve to the same entry of the locals map. -/
theorem localKey_offset_truncation (o m : Int) (t : asIDBLocalType) :
    (asIDBLocalKey.ofInt o t).offset = (o % 256).toNat ∧
    asIDBLocalKey.ofInt (o + 256 * m) t = asIDBLocalKey.ofInt o t ∧
    (∀ h8 hT, hashLocalKey h8 hT (asIDBLocalKey.ofInt (o + 256 * m) t) =
              hashLocalKey h8 hT (asIDBLocalKey.ofInt o t)) ∧
    (∀ lm : List (asIDBLocalKey × List asIDBVarView),
        localsFind lm (asIDBLocalKey.ofInt (o + 256 * m) t) =
        localsFind lm (asIDBLocalKey.ofInt o t)) := by
  have key : asIDBLocalKey.ofInt (o + 256 * m) t = asIDBLocalKey.ofInt o t := by
    simp [asIDBLocalKey.ofInt, Int.add_mul_emod_self_left]
  exact ⟨rfl, key, fun h8 hT => by rw [key], fun lm => by rw [key]⟩

/-- C2: on a cache whose store does not yet hold address `a`,
`AddVarState a` reports `exists = false` and creates the entry;
calling it again reports `exists = true`, leaves the store untouched
and designates the same entry (the one keyed by `a`), structural
equality of typeId and address being what keys the lookup. -/
theorem addVarState_idempotent (c : asIDBCache) (a : asIDBVarAddr)
    (h : findVar c.var_states a = none) :
    (c.AddVarState a).2.2 = false ∧
    ((c.AddVarState a).1.AddVarState a).2.2 = true ∧
    (c.AddVarState a).2.1 = a ∧
    ((c.AddVarState a).1.AddVarState a).2.1 = a ∧
    ((c.AddVarState a).1.AddVarState a).1 = (c.AddVarState a).1 ∧
    findVar (c.AddVarState a).1.var_states a = some asIDBVarState.init := by
  have h1 : c.AddVarState a =
      ({ c with var_states := c.var_states ++ [(a, asIDBVarState.init)] }, a, false) := by
    simp [asIDBCache.AddVarState, h]
  have h2 : findVar (c.var_states ++ [(a, asIDBVarState.init)]) a = some asIDBVarState.init :=
    findVar_append_self c.var_states a asIDBVarState.init h
  refine ⟨by rw [h1], ?_, by rw [h1], ?_, ?_, by rw [h1]; exact h2⟩
  · rw [h1]
    simp [asIDBCache.AddVarState, h2]
  · rw [h1]
    simp [asIDBCache.AddVarState, h2]
  · rw [h1]
    simp [asIDBCache.AddVarState, h2]

/-- Witness for C2 at a concrete empty cache and address. -/
theorem addVarState_idempotent_witness :
    (let c : asIDBCache := { ctx := ⟨1, true⟩ }
     let a : asIDBVarAddr := ⟨4, asIDBAddr.runtime 100⟩
     (c.AddVarState a).2.2 = false ∧
     ((c.AddVarState a).1.AddVarState a).2.2 = true ∧
     (c.AddVarState a).2.1 = a ∧
     ((c.AddVarState a).1.AddVarState a).2.1 = a ∧
     ((c.AddVarState a).1.AddVarState a).1 = (c.AddVarState a).1 ∧
     findVar (c.AddVarState a).1.var_states a = some asIDBVarState.init) :=
  addVarState_idempotent { ctx := ⟨1, true⟩ } ⟨4, asIDBAddr.runtime 100⟩ rfl

/-- A file breakpoint location (header, `asIDBBreakpointLocation`):
section name plus line. -/
structure asIDBBreakpointLocation where
  sec : String
  line : Int
deriving DecidableEq, Repr

/-- A breakpoint (header, `asIDBBreakpoint`): a tagged union of a
function name and a file location. -/
inductive asIDBBreakpoint
  | function (name : String)
  | fileLocation (loc : asIDBBreakpointLocation)
deriving DecidableEq, Repr

/-- Modelled from the spec: the body of `asIDBDebugger::ToggleBreakpoint`
is not under src/ (the header only declares it at line 518). Per the
design, it builds a `SourceLocation` key from section and line and flips
its membership in the breakpoint set, returning whether the breakpoint
is now set. The `std::unordered_set` is modelled as a duplicate-free
list. -/
def ToggleBreakpoint (bps : List asIDBBreakpoint) (sec : String) (line : Int) :
    List asIDBBreakpoint × Bool :=
  let bp := asIDBBreakpoint.fileLocation ⟨sec, line⟩
  if bp ∈ bps then (bps.erase bp, false) else (bp :: bps, true)

/-- C3: `ToggleBreakpoint` returns true exactly when the breakpoint is
in the set after the call, and toggling the same location twice in a
row restores the original membership of every breakpoint. -/
theorem toggleBreakpoint_flips (bps : List asIDBBreakpoint) (s : String) (l : Int)
    (hnd : bps.Nodup) :
    ((ToggleBreakpoint bps s l).2 = true ↔
      asIDBBreakpoint.fileLocation ⟨s, l⟩ ∈ (ToggleBreakpoint bps s l).1) ∧
    (∀ b, b ∈ (ToggleBreakpoint (ToggleBreakpoint bps s l).1 s l).1 ↔ b ∈ bps) := by
  by_cases hbp : asIDBBreakpoint.fileLocation ⟨s, l⟩ ∈ bps
  · have h1 : ToggleBreakpoint bps s l =
        (bps.erase (asIDBBreakpoint.fileLocation ⟨s, l⟩), false) := by
      simp [ToggleBreakpoint, hbp]
    have hnotin : asIDBBreakpoint.fileLocation ⟨s, l⟩ ∉
        bps.erase (asIDBBreakpoint.fileLocation ⟨s, l⟩) := by
      intro hmem
      exact ((List.Nodup.mem_erase_iff hnd).mp hmem).1 rfl
    constructor
    · rw [h1]
      simp only [Bool.false_eq_true, false_iff]
      exact hnotin
    · intro b
      rw [h1]
      simp only [ToggleBreakpoint, if_neg hnotin, List.mem_cons]
      constructor
      · rintro (rfl | hb)
        · exact hbp
        · exact ((List.Nodup.mem_erase_iff hnd).mp hb).2
      · intro hb
        by_cases hbe : b = asIDBBreakpoint.fileLocation ⟨s, l⟩
        · exact Or.inl hbe
        · exact Or.inr ((List.Nodup.mem_erase_iff hnd).mpr ⟨hbe, hb⟩)
  · have h1 : ToggleBreakpoint bps s l =
        (asIDBBreakpoint.fileLocation ⟨s, l⟩ :: bps, true) := by
      simp [ToggleBreakpoint, hbp]
    constructor
    · rw [h1]
      simp
    · intro b
      rw [h1]
      simp only [ToggleBreakpoint, List.mem_cons, if_pos (List.mem_cons_self _ _),
        List.erase_cons_head]
      rfl

/-- Witness for C3 at a concrete breakpoint set. -/
theorem toggleBreakpoint_flips_witness :
    ((ToggleBreakpoint [asIDBBreakpoint.function "f"] "main.as" 10).2 = true ↔
      asIDBBreakpoint.fileLocation ⟨"main.as", 10⟩ ∈
        (ToggleBreakpoint [asIDBBreakpoint.function "f"] "main.as" 10).1) ∧
    (∀ b, b ∈ (ToggleBreakpoint
        (ToggleBreakpoint [asIDBBreakpoint.function "f"] "main.as" 10).1 "main.as" 10).1 ↔
      b ∈ [asIDBBreakpoint.function "f"]) :=
  toggleBreakpoint_flips [asIDBBreakpoint.function "f"] "main.as" 10 (by simp)

/-- Stepping actions of the controller (header, `asIDBAction`). -/
inductive asIDBAction
  | None
  | StepInto
  | StepOver
  | StepOut
deriving DecidableEq, Repr

/-- The two controller states of the design: `running` (no suspension
in progress) and `suspended` (runtime thread blocked). -/
inductive asIDBDebuggerMode
  | running
  | suspended
deriving DecidableEq, Repr

/-- Controller state (header, `asIDBDebugger`): breakpoint set, pending
action, recorded reference stack depth (`stack_size`), and the
running/suspended mode of the state machine. -/
structure asIDBDebugger where
  breakpoints : List asIDBBreakpoint
  action : asIDBAction := asIDBAction.None
  stack_size : Nat := 0
  mode : asIDBDebuggerMode := asIDBDebuggerMode.running
deriving DecidableEq, Repr

/-- What the runtime reports at one instruction boundary: current
section, line, call stack depth, and the name of the function being
entered when this boundary is a function entry. -/
structure LineInfo where
  sec : String
  line : Int
  depth : Nat
  enteredFunction : Option String
deriving DecidableEq, Repr

/-- Breakpoint matching at an instruction boundary (design §4.3): a
file breakpoint matches on exact section and line; a function
breakpoint matches the name of the function being entered. -/
def breakpointMatches (bps : List asIDBBreakpoint) (li : LineInfo) : Bool :=
  decide (asIDBBreakpoint.fileLocation ⟨li.sec, li.line⟩ ∈ bps) ||
    (match li.enteredFunction with
     | some f => decide (asIDBBreakpoint.function f ∈ bps)
     | none => false)

/-- Modelled from the spec: the break condition evaluated by
`asIDBDebugger::LineCallback`, whose body is not under src/ (the
header only declares it at line 528). StepInto breaks unconditionally;
StepOver breaks when the current depth is at most the recorded
reference depth; StepOut breaks when it is strictly below; with no
action pending, a matching breakpoint breaks. -/
def breakCondition (d : asIDBDebugger) (li : LineInfo) : Bool :=
  match d.action with
  | asIDBAction.StepInto => true
  | asIDBAction.StepOver => decide (li.depth ≤ d.stack_size)
  | asIDBAction.StepOut => decide (li.depth < d.stack_size)
  | asIDBAction.None => breakpointMatches d.breakpoints li

/-- Modelled from the spec: `asIDBDebugger::LineCallback` fires in the
`running` state; when the break condition holds it suspends (the
returned flag is true), and otherwise it returns leaving the debugger
state untouched. -/
def LineCallback (d : asIDBDebugger) (li : LineInfo) : asIDBDebugger × Bool :=
  if d.mode = asIDBDebuggerMode.running then
    if breakCondition d li then ({ d with mode := asIDBDebuggerMode.suspended }, true)
    else (d, false)
  else (d, false)

/-- Unfolding of the break condition into the four cases of the design. -/
theorem breakCondition_iff (d : asIDBDebugger) (li : LineInfo) :
    breakCondition d li = true ↔
      (d.action = asIDBAction.StepInto ∨
       (d.action = asIDBAction.StepOver ∧ li.depth ≤ d.stack_size) ∨
       (d.action = asIDBAction.StepOut ∧ li.depth < d.stack_size) ∨
       (d.action = asIDBAction.None ∧
         (asIDBBreakpoint.fileLocation ⟨li.sec, li.line⟩ ∈ d.breakpoints ∨
          ∃ f, li.enteredFunction = some f ∧
            asIDBBreakpoint.function f ∈ d.breakpoints))) := by
  cases ha : d.action with
  | StepInto => simp [breakCondition, ha]
  | StepOver => simp [breakCondition, ha]
  | StepOut => simp [breakCondition, ha]
  | None =>
      cases hef : li.enteredFunction with
      | none => simp [breakCondition, ha, breakpointMatches, hef]
      | some f => simp [breakCondition, ha, breakpointMatches, hef]

/-- C1: while the controller is running, a firing of the
per-instruction callback breaks exactly when the action is StepInto,
or the action is StepOver and the depth is at most the reference
depth, or the action is StepOut and the depth is strictly below the
reference depth, or no action is pending and a breakpoint matches the
location or the entered function; when none holds, the callback
leaves the debugger state unchanged. -/
theorem lineCallback_break_iff (d : asIDBDebugger) (li : LineInfo)
    (h : d.mode = asIDBDebuggerMode.running) :
    ((LineCallback d li).2 = true ↔
      (d.action = asIDBAction.StepInto ∨
       (d.action = asIDBAction.StepOver ∧ li.depth ≤ d.stack_size) ∨
       (d.action = asIDBAction.StepOut ∧ li.depth < d.stack_size) ∨
       (d.action = asIDBAction.None ∧
         (asIDBBreakpoint.fileLocation ⟨li.sec, li.line⟩ ∈ d.breakpoints ∨
          ∃ f, li.enteredFunction = some f ∧
            asIDBBreakpoint.function f ∈ d.breakpoints)))) ∧
    ((LineCallback d li).2 = false → (LineCallback d li).1 = d) := by
  constructor
  · rw [← breakCondition_iff]
    simp only [LineCallback, h, if_true]
    cases hb : breakCondition d li <;> simp [hb]
  · intro hfalse
    simp only [LineCallback, h, if_true] at hfalse ⊢
    cases hb : breakCondition d li <;> simp [hb] at hfalse ⊢

/-- Witness for C1: a pending StepInto breaks unconditionally on a
concrete running controller. -/
theorem lineCallback_break_iff_witness :
    (LineCallback
      { breakpoints := [], action := asIDBAction.StepInto,
        stack_size := 0, mode := asIDBDebuggerMode.running }
      { sec := "main.as", line := 1, depth := 5, enteredFunction := none }).2 = true :=
  ((lineCallback_break_iff _ _ rfl).1).mpr (Or.inl rfl)

/-- Modelled from the spec: `asIDBCache::CacheGlobals`, whose body is
not under src/ (the header only declares it at line 352). Per the
design it populates the global view list exactly once per episode,
guarded by the `globalsCached` boolean, and re-invocation is a no-op.
The enumeration of the global properties the runtime reports is the
`enumerated` parameter. -/
def asIDBCache.CacheGlobals (enumerated : List asIDBVarView) (c : asIDBCache) :
    asIDBCache :=
  if c.globalsCached then c
  else { c with globalsCached := true, globals := enumerated }

/-- The consumer-side gate, from `asIDBImGuiFrontend::RenderGlobals`
(src/as_debugger_imgui.cpp, lines 320-327): `CacheGlobals` is called
only when `globalsCached` is still false. -/
def renderGlobalsCacheStep (enumerated : List asIDBVarView) (c : asIDBCache) :
    asIDBCache :=
  if !c.globalsCached then c.CacheGlobals enumerated else c

/-- C6: on a fresh cache the first `CacheGlobals` fills the global
list and sets the guard flag; every further invocation in the same
episode, with any enumeration, is a no-op leaving the whole cache
(globals included) unchanged; and the consumer gate of RenderGlobals
only calls it while the flag is unset. -/
theorem cacheGlobals_exactly_once (g : List asIDBVarView) (c : asIDBCache)
    (h : c.globalsCached = false) :
    (c.CacheGlobals g).globalsCached = true ∧
    (c.CacheGlobals g).globals = g ∧
    (∀ g', (c.CacheGlobals g).CacheGlobals g' = c.CacheGlobals g) ∧
    (∀ g', renderGlobalsCacheStep g' (c.CacheGlobals g) = c.CacheGlobals g) ∧
    renderGlobalsCacheStep g c = c.CacheGlobals g := by
  have h1 : c.CacheGlobals g = { c with globalsCached := true, globals := g } := by
    simp [asIDBCache.CacheGlobals, h]
  refine ⟨by rw [h1], by rw [h1], ?_, ?_, ?_⟩
  · intro g'
    rw [h1]
    simp [asIDBCache.CacheGlobals]
  · intro g'
    rw [h1]
    simp [renderGlobalsCacheStep]
  · simp [renderGlobalsCacheStep, h]

/-- Witness for C6 at a concrete fresh cache. -/
theorem cacheGlobals_exactly_once_witness :
    (let c : asIDBCache := { ctx := ⟨1, true⟩ }
     let g : List asIDBVarView := [⟨"g", "int", ⟨4, asIDBAddr.runtime 8⟩⟩]
     (c.CacheGlobals g).globalsCached = true ∧
     (c.CacheGlobals g).globals = g ∧
     (∀ g', (c.CacheGlobals g).CacheGlobals g' = c.CacheGlobals g) ∧
     (∀ g', renderGlobalsCacheStep g' (c.CacheGlobals g) = c.CacheGlobals g) ∧
     renderGlobalsCacheStep g c = c.CacheGlobals g) :=
  cacheGlobals_exactly_once [⟨"g", "int", ⟨4, asIDBAddr.runtime 8⟩⟩]
    { ctx := ⟨1, true⟩ } rfl

/-- C9: the cache owns exactly one context reference for its whole
lifetime: construction performs one AddRef, destruction clears the
line callback and performs one Release, a construct-destruct pair is
refcount-neutral, and the cache operations in between (`AddVarState`
from the header, `CacheGlobals` as modelled) never touch the context. -/
theorem cache_owns_one_reference (ctx : asIScriptContext) (c : asIDBCache)
    (id : asIDBVarAddr) (g : List asIDBVarView) :
    (asIDBCache.construct ctx).ctx.refCount = ctx.refCount + 1 ∧
    (asIDBCache.construct ctx).ctx.lineCallbackSet = ctx.lineCallbackSet ∧
    asIDBCache.destruct c =
      { refCount := c.ctx.refCount - 1, lineCallbackSet := false } ∧
    (asIDBCache.construct ctx).destruct.refCount = ctx.refCount ∧
    ((c.AddVarState id).1.ctx = c.ctx) ∧
    ((c.CacheGlobals g).ctx = c.ctx) := by
  refine ⟨rfl, rfl, rfl, ?_, ?_, ?_⟩
  · simp [asIDBCache.construct, asIDBCache.destruct, asIScriptContext.AddRef,
      asIScriptContext.ClearLineCallback, asIScriptContext.Release]
  · rw [asIDBCache.AddVarState]
    cases findVar c.var_states id <;> rfl
  · rw [asIDBCache.CacheGlobals]
    split <;> rfl

/-- Modelled from the spec: `asIDBCache::QueryVariableChildren` (called
by the frontend; its body is not under src/). Expanding a state
populates its children in place and sets the `queriedChildren` flag. -/
def QueryVariableChildren (expandedChildren : List asIDBVarView)
    (st : asIDBVarState) : asIDBVarState :=
  { st with queriedChildren := true, children := expandedChildren }

/-- The expansion request step of
`asIDBImGuiFrontend::RenderDebuggerVariable` (src/as_debugger_imgui.cpp,
lines 415-422): on an opened node whose value is Children-expandable,
query the children only when `queriedChildren` is not yet set. -/
def renderExpandStep (expandedChildren : List asIDBVarView)
    (st : asIDBVarState) : asIDBVarState :=
  if st.value.expandable = asIDBExpandType.Children then
    if st.queriedChildren = false then QueryVariableChildren expandedChildren st
    else st
  else st

/-- C7: expansion is requested at most once per state: the gate is the
dedicated `queriedChildren` flag, not emptiness of the children list,
so a state whose flag is set (its children may legitimately be empty)
is left completely unchanged by a further expansion request; and after
any expansion request the state absorbs all later ones. -/
theorem expand_requested_once (e : List asIDBVarView) (st : asIDBVarState)
    (h : st.queriedChildren = true) :
    renderExpandStep e st = st ∧
    (renderExpandStep e st).children = st.children ∧
    (renderExpandStep e st).entries = st.entries ∧
    (∀ st' : asIDBVarState, ∀ e' e'' : List asIDBVarView,
      renderExpandStep e'' (renderExpandStep e' st') = renderExpandStep e' st') := by
  have hfix : renderExpandStep e st = st := by
    rw [renderExpandStep]
    split
    · rw [h]
      simp
    · rfl
  refine ⟨hfix, by rw [hfix], by rw [hfix], ?_⟩
  intro st' e' e''
  rw [renderExpandStep]
  by_cases hc : st'.value.expandable = asIDBExpandType.Children
  · rw [renderExpandStep, if_pos hc]
    by_cases hq : st'.queriedChildren = false
    · rw [if_pos hq]
      simp [QueryVariableChildren]
    · rw [if_neg hq, if_pos hc, if_neg hq]
  · rw [renderExpandStep, if_neg hc, if_neg hc]

/-- Witness for C7 at a concrete already-queried state with
legitimately empty children. -/
theorem expand_requested_once_witness :
    (let st : asIDBVarState :=
      { value := { expandable := asIDBExpandType.Children },
        queriedChildren := true, children := [] }
     let e : List asIDBVarView := [⟨"c", "int", ⟨4, asIDBAddr.runtime 16⟩⟩]
     renderExpandStep e st = st ∧
     (renderExpandStep e st).children = st.children ∧
     (renderExpandStep e st).entries = st.entries ∧
     (∀ st' : asIDBVarState, ∀ e' e'' : List asIDBVarView,
       renderExpandStep e'' (renderExpandStep e' st') = renderExpandStep e' st')) :=
  expand_requested_once [⟨"c", "int", ⟨4, asIDBAddr.runtime 16⟩⟩]
    { value := { expandable := asIDBExpandType.Children },
      queriedChildren := true, children := [] } rfl

/-- Modelled from the spec: `asIDBVarView::operator==` (declared in
the header at line 102, body not under src/). Per the design, view
equality is by display name plus referenced state identity. -/
def asIDBVarView.eqOp (a b : asIDBVarView) : Bool :=
  decide (a.name = b.name) && decide (a.var = b.var)

/-- Erase the first element satisfying the predicate, as
`std::find` followed by `erase` at the found position does. -/
def eraseFirstMatch {α : Type} (p : α → Bool) : List α → List α
  | [] => []
  | x :: xs => if p x then xs else x :: eraseFirstMatch p xs

/-- Appending a watch entry, from
`asIDBImGuiFrontend::RenderDebuggerVariable`
(src/as_debugger_imgui.cpp, line 408): the view copy is pushed onto the
back of the watch list. -/
def addToWatch (c : asIDBCache) (v : asIDBVarView) : asIDBCache :=
  { c with watch := c.watch ++ [v] }

/-- Removing a watch entry, from
`asIDBImGuiFrontend::RenderDebuggerVariable` (line 404, locating the
position with std::find over view equality) and
`asIDBImGuiFrontend::RenderWatch` (lines 374-378, erasing that
position). -/
def removeWatchEntry (c : asIDBCache) (v : asIDBVarView) : asIDBCache :=
  { c with watch := eraseFirstMatch (fun w => asIDBVarView.eqOp w v) c.watch }

theorem mem_eraseFirstMatch {α : Type} (p : α → Bool) (l : List α) (a : α)
    (ha : a ∈ l) (hpa : p a = false) : a ∈ eraseFirstMatch p l := by
  induction l with
  | nil => cases ha
  | cons x xs ih =>
      rw [eraseFirstMatch]
      by_cases hx : p x = true
      · rw [if_pos hx]
        rcases List.mem_cons.mp ha with rfl | hxs
        · exact absurd hx (by rw [hpa]; simp)
        · exact hxs
      · rw [if_neg hx]
        rcases List.mem_cons.mp ha with rfl | hxs
        · exact List.mem_cons_self _ _
        · exact List.mem_cons_of_mem _ (ih hxs)

/-- C8: watch entries are view copies appended explicitly, so two
views that differ as views (here: by display name) but reference the
same address coexist on the list; removal erases the position of the
view-equality match, so removing one entry leaves any non-matching
entry, even one referencing the same address, in place. -/
theorem watch_remove_by_view (c : asIDBCache) (v1 v2 : asIDBVarView)
    (hne : asIDBVarView.eqOp v2 v1 = false) :
    ((addToWatch (addToWatch c v1) v2).watch = c.watch ++ [v1] ++ [v2]) ∧
    (v1 ∈ (addToWatch (addToWatch c v1) v2).watch ∧
     v2 ∈ (addToWatch (addToWatch c v1) v2).watch) ∧
    (v2 ∈ c.watch → v2 ∈ (removeWatchEntry c v1).watch) := by
  refine ⟨rfl, ⟨?_, ?_⟩, ?_⟩
  · simp [addToWatch]
  · simp [addToWatch]
  · intro hv2
    exact mem_eraseFirstMatch _ _ _ hv2 hne

/-- Witness for C8: two watch entries named differently but holding
the same address coexist, and removing the first keeps the second. -/
theorem watch_remove_by_view_witness :
    (let v1 : asIDBVarView := ⟨"x", "int", ⟨4, asIDBAddr.runtime 100⟩⟩
     let v2 : asIDBVarView := ⟨"globalX", "int", ⟨4, asIDBAddr.runtime 100⟩⟩
     let c : asIDBCache := { ctx := ⟨1, true⟩, watch := [v1, v2] }
     ((addToWatch (addToWatch c v1) v2).watch = c.watch ++ [v1] ++ [v2]) ∧
     (v1 ∈ (addToWatch (addToWatch c v1) v2).watch ∧
      v2 ∈ (addToWatch (addToWatch c v1) v2).watch) ∧
     (v2 ∈ c.watch → v2 ∈ (removeWatchEntry c v1).watch)) :=
  watch_remove_by_view
    { ctx := ⟨1, true⟩,
      watch := [⟨"x", "int", ⟨4, asIDBAddr.runtime 100⟩⟩,
                ⟨"globalX", "int", ⟨4, asIDBAddr.runtime 100⟩⟩] }
    ⟨"x", "int", ⟨4, asIDBAddr.runtime 100⟩⟩
    ⟨"globalX", "int", ⟨4, asIDBAddr.runtime 100⟩⟩ (by decide)

/-- Modelled from the spec: capture of a temporary value into a
`asIDBVarState` (`stackMemory` field, header lines 141-144; the
capturing code is not under src/). The bytes at the originating
runtime address are copied into a fresh exclusively-owned buffer and
the address recorded for the state is a pointer into that buffer. -/
def CaptureTemporary (mem : Nat → Nat) (src : Nat) (size : Nat) (bufId : Nat)
    (typeId : Nat) : asIDBVarAddr × asIDBVarState :=
  ((⟨typeId, asIDBAddr.buffer bufId 0⟩ : asIDBVarAddr),
   { stackMemory := some ((List.range size).map fun i => mem (src + i)) })

/-- Reading the bytes a cached state displays, against the current
runtime memory: a state owning a snapshot buffer reads the buffer; a
buffer-less state reads runtime memory at its reported address. -/
def readDisplayedBytes (mem : Nat → Nat) (id : asIDBVarAddr)
    (st : asIDBVarState) (size : Nat) : List Nat :=
  match st.stackMemory with
  | some bytes => bytes
  | none =>
      match id.address with
      | asIDBAddr.runtime a => (List.range size).map fun i => mem (a + i)
      | _ => []

/-- C4: a state captured from a temporary owns a private byte buffer
holding the bytes read at capture time, its reported address points
into that buffer and not into runtime memory, and displaying the
state after the runtime memory has been arbitrarily overwritten still
yields exactly the captured bytes. -/
theorem captureTemporary_buffer_stable (mem mem' : Nat → Nat)
    (src size bufId typeId : Nat) :
    ((CaptureTemporary mem src size bufId typeId).1.address =
      asIDBAddr.buffer bufId 0) ∧
    (∀ a, (CaptureTemporary mem src size bufId typeId).1.address ≠
      asIDBAddr.runtime a) ∧
    ((CaptureTemporary mem src size bufId typeId).2.stackMemory =
      some ((List.range size).map fun i => mem (src + i))) ∧
    (readDisplayedBytes mem' (CaptureTemporary mem src size bufId typeId).1
        (CaptureTemporary mem src size bufId typeId).2 size =
      (List.range size).map fun i => mem (src + i)) := by
  refine ⟨rfl, ?_, rfl, rfl⟩
  intro a h
  simp [CaptureTemporary] at h

/-- Witness for C4: capturing two bytes of identity-valued runtime
memory at address 10 and displaying them against zeroed-out runtime
memory still yields the captured bytes. -/
theorem captureTemporary_buffer_stable_witness :
    readDisplayedBytes (fun _ => 0) (CaptureTemporary (fun a => a) 10 2 7 4).1
      (CaptureTemporary (fun a => a) 10 2 7 4).2 2 = [10, 11] :=
  ((captureTemporary_buffer_stable (fun a => a) (fun _ => 0) 10 2 7 4).2.2.2).trans
    (by decide)

/-- The `asTYPEID_OBJHANDLE` qualifier bit of the runtime type ids. -/
def asTYPEID_OBJHANDLE : Nat := 0x40000000

/-- The `asTYPEID_HANDLETOCONST` qualifier bit. -/
def asTYPEID_HANDLETOCONST : Nat := 0x20000000

/-- The `asTYPEID_MASK_OBJECT` bits of the runtime type ids. -/
def asTYPEID_MASK_OBJECT : Nat := 0x1C000000

/-- The `asTYPEID_MASK_SEQNBR` bits: the sequence-number portion. -/
def asTYPEID_MASK_SEQNBR : Nat := 0x03FFFFFF

/-- The type id of the largest primitive type (`asTYPEID_DOUBLE`). -/
def asTYPEID_DOUBLE : Nat := 11

/-- A type id denotes a handle when its OBJHANDLE qualifier bit is set. -/
def isHandleType (t : Nat) : Bool := decide (t &&& asTYPEID_OBJHANDLE ≠ 0)

/-- Strip the handle/const qualifier bits, keeping the object kind and
sequence-number bits (the header, lines 263-265, directs registrations
to remove everything outside asTYPEID_MASK_OBJECT and
asTYPEID_MASK_SEQNBR). -/
def stripHandleFlags (t : Nat) : Nat :=
  t &&& (asTYPEID_MASK_OBJECT ||| asTYPEID_MASK_SEQNBR)

/-- The sequence-number portion of a type id, on which the evaluator
registry is keyed. -/
def seqnbr (t : Nat) : Nat := t &&& asTYPEID_MASK_SEQNBR

/-- Null or uninitialized sentinel: a null address, or the void type
id of a not-yet-initialized variable. -/
def isNullOrUninit (id : asIDBVarAddr) : Bool :=
  decide (id.address = asIDBAddr.null) || decide (id.typeId = 0)

/-- Which evaluator the dispatch selects. -/
inductive asIDBEvaluatorKind
  | nullUninit
  | registered (key : Nat)
  | primitive
  | object
deriving DecidableEq, Repr

/-- Modelled from the spec: `asIDBTypeEvaluatorMap::GetEvaluator`,
whose body is not under src/ (the header declares it at lines 270-273
and documents that null/uninit never reaches the evaluators and that
handles are rewritten to non-handles). The null or uninitialized
sentinel is resolved by the fixed evaluator before any registry
lookup; otherwise a handle id is rewritten to the referenced concrete
object (qualifier bits stripped, address replaced by the runtime
dereference `deref`) and the registry, keyed by sequence number, is
consulted, falling back to the built-in primitive or object
evaluator. The registry lookup on an already-concrete id is the
`dispatchConcrete` sub-step. -/
def dispatchConcrete (registry : List Nat) (id' : asIDBVarAddr) :
    asIDBEvaluatorKind × asIDBVarAddr :=
  if seqnbr id'.typeId ∈ registry then
    (asIDBEvaluatorKind.registered (seqnbr id'.typeId), id')
  else if id'.typeId ≤ asTYPEID_DOUBLE then (asIDBEvaluatorKind.primitive, id')
  else (asIDBEvaluatorKind.object, id')

/-- Modelled from the spec: sentinel check, handle rewrite, then
concrete dispatch (see `dispatchConcrete`). -/
def GetEvaluator (registry : List Nat) (deref : asIDBAddr → asIDBAddr)
    (id : asIDBVarAddr) : asIDBEvaluatorKind × asIDBVarAddr :=
  if isNullOrUninit id then (asIDBEvaluatorKind.nullUninit, id)
  else
    dispatchConcrete registry
      (if isHandleType id.typeId then
        (⟨stripHandleFlags id.typeId, deref id.address⟩ : asIDBVarAddr)
      else id)

theorem dispatchConcrete_snd (registry : List Nat) (id' : asIDBVarAddr) :
    (dispatchConcrete registry id').2 = id' := by
  rw [dispatchConcrete]
  split
  · rfl
  · split <;> rfl

theorem dispatchConcrete_registered (registry : List Nat) (id' : asIDBVarAddr)
    (k : Nat) (hk : (dispatchConcrete registry id').1 =
      asIDBEvaluatorKind.registered k) :
    k = seqnbr id'.typeId ∧ k ∈ registry := by
  rw [dispatchConcrete] at hk
  by_cases hr : seqnbr id'.typeId ∈ registry
  · rw [if_pos hr] at hk
    have hke : asIDBEvaluatorKind.registered (seqnbr id'.typeId) =
        asIDBEvaluatorKind.registered k := hk
    have : seqnbr id'.typeId = k := by
      simpa [asIDBEvaluatorKind.registered.injEq] using hke
    exact ⟨this.symm, this ▸ hr⟩
  · rw [if_neg hr] at hk
    split at hk
    · have : asIDBEvaluatorKind.primitive = asIDBEvaluatorKind.registered k := hk
      simp at this
    · have : asIDBEvaluatorKind.object = asIDBEvaluatorKind.registered k := hk
      simp at this

theorem isHandleType_stripHandleFlags (t : Nat) :
    isHandleType (stripHandleFlags t) = false := by
  have hm : (asTYPEID_MASK_OBJECT ||| asTYPEID_MASK_SEQNBR) &&&
      asTYPEID_OBJHANDLE = 0 := by decide
  have h : stripHandleFlags t &&& asTYPEID_OBJHANDLE = 0 := by
    rw [stripHandleFlags, Nat.land_assoc, hm, Nat.and_zero]
  simp [isHandleType, h]

theorem seqnbr_stripHandleFlags (t : Nat) :
    seqnbr (stripHandleFlags t) = seqnbr t := by
  have hm : (asTYPEID_MASK_OBJECT ||| asTYPEID_MASK_SEQNBR) &&&
      asTYPEID_MASK_SEQNBR = asTYPEID_MASK_SEQNBR := by decide
  rw [seqnbr, stripHandleFlags, Nat.land_assoc, hm]
  rfl

/-- C5: the dispatch resolves null/uninitialized sentinels with the
fixed evaluator without consulting the registry, whatever it
contains; any other address is rewritten, when it is a handle, to the
referenced concrete object before the lookup, so the id the selected
evaluator receives is never a handle, keeps the sequence number of
the original type, and a registry hit is keyed exactly on that
sequence-number portion. -/
theorem getEvaluator_dispatch (registry : List Nat)
    (deref : asIDBAddr → asIDBAddr) (id : asIDBVarAddr) :
    (isNullOrUninit id = true →
      GetEvaluator registry deref id = (asIDBEvaluatorKind.nullUninit, id)) ∧
    (isNullOrUninit id = false →
      isHandleType (GetEvaluator registry deref id).2.typeId = false ∧
      (isHandleType id.typeId = true →
        (GetEvaluator registry deref id).2.address = deref id.address ∧
        (GetEvaluator registry deref id).2.typeId = stripHandleFlags id.typeId ∧
        seqnbr (GetEvaluator registry deref id).2.typeId = seqnbr id.typeId) ∧
      (isHandleType id.typeId = false →
        (GetEvaluator registry deref id).2 = id) ∧
      (∀ k, (GetEvaluator registry deref id).1 = asIDBEvaluatorKind.registered k →
        k = seqnbr (GetEvaluator registry deref id).2.typeId ∧ k ∈ registry)) := by
  constructor
  · intro hs
    rw [GetEvaluator, if_pos hs]
  · intro hs
    rw [GetEvaluator, if_neg (by rw [hs]; simp)]
    by_cases hh : isHandleType id.typeId = true
    · rw [if_pos hh]
      refine ⟨?_, ?_, ?_, ?_⟩
      · rw [dispatchConcrete_snd]
        exact isHandleType_stripHandleFlags id.typeId
      · intro _
        rw [dispatchConcrete_snd]
        exact ⟨rfl, rfl, seqnbr_stripHandleFlags id.typeId⟩
      · intro hcontra
        rw [hcontra] at hh
        exact absurd hh (by simp)
      · intro k hk
        rw [dispatchConcrete_snd]
        exact dispatchConcrete_registered registry _ k hk
    · have hh' : isHandleType id.typeId = false := by
        cases hq : isHandleType id.typeId
        · rfl
        · exact absurd hq hh
      rw [if_neg hh]
      refine ⟨?_, ?_, ?_, ?_⟩
      · rw [dispatchConcrete_snd]
        exact hh'
      · intro hcontra
        exact absurd hcontra hh
      · intro _
        exact dispatchConcrete_snd registry id
      · intro k hk
        rw [dispatchConcrete_snd]
        exact dispatchConcrete_registered registry id k hk

/-- Witness for C5: a null-addressed id resolves to the fixed
evaluator even when the registry holds its sequence number, and a
concrete handle id is dereferenced before lookup. -/
theorem getEvaluator_dispatch_witness :
    GetEvaluator [5] (fun _ => asIDBAddr.runtime 64) ⟨5, asIDBAddr.null⟩ =
      (asIDBEvaluatorKind.nullUninit, ⟨5, asIDBAddr.null⟩) ∧
    (GetEvaluator [5] (fun _ => asIDBAddr.runtime 64)
        ⟨asTYPEID_OBJHANDLE ||| 5, asIDBAddr.runtime 32⟩).2.address =
      asIDBAddr.runtime 64 :=
  ⟨(getEvaluator_dispatch [5] (fun _ => asIDBAddr.runtime 64)
      ⟨5, asIDBAddr.null⟩).1 rfl,
   (((getEvaluator_dispatch [5] (fun _ => asIDBAddr.runtime 64)
      ⟨asTYPEID_OBJHANDLE ||| 5, asIDBAddr.runtime 32⟩).2 (by decide)).2.1
      (by decide)).1⟩

end ASDbg
